import Mathlib

/-!
Verification of the classroom-leaderboard submission validation and scoring core.

The embedded program is `src/app.py`: a leaderboard app whose core is the function
`calculate_f1_score(submission_df, solution_df)` together with the submit handler
at module level.  Tables are embedded as lists of `(pol_number, numclaims)` rows;
the sklearn call `f1_score(y_true, y_pred, average='weighted')` is embedded as
`weightedF1` over the merged rows, with rational arithmetic in place of float64.
-/

namespace ClassroomLeaderboard

variable {α : Type} [DecidableEq α]

/-! ### Embedding of sklearn weighted F1

Given the merged table, the code calls
`f1_score(merged_df['solution_target'], merged_df['submission_target'], average='weighted')`,
so each merged row yields a pair `(true label, predicted label)`.
sklearn computes, for every label `c` occurring in `y_true` or `y_pred`, the
per-class F1 from the per-class precision and recall (0 in place of 0/0, which is
the default `zero_division='warn'` behaviour), then averages the per-class F1
values weighted by support, the number of occurrences of `c` in `y_true`. -/

/-- Number of merged rows whose true label and predicted label both equal `c`. -/
def truePos (pairs : List (α × α)) (c : α) : ℕ :=
  (pairs.filter fun p => p.1 = c ∧ p.2 = c).length

/-- Number of merged rows predicted `c` whose true label is not `c`. -/
def falsePos (pairs : List (α × α)) (c : α) : ℕ :=
  (pairs.filter fun p => p.1 ≠ c ∧ p.2 = c).length

/-- Number of merged rows with true label `c` predicted as something else. -/
def falseNeg (pairs : List (α × α)) (c : α) : ℕ :=
  (pairs.filter fun p => p.1 = c ∧ p.2 ≠ c).length

/-- Support of class `c`: number of occurrences of `c` among the true labels. -/
def support (pairs : List (α × α)) (c : α) : ℕ :=
  (pairs.filter fun p => p.1 = c).length

/-- Per-class precision, with the sklearn `zero_division='warn'` convention that
0/0 is reported as 0 (in ℚ, division by zero is 0, so no case split is needed). -/
def precisionScore (pairs : List (α × α)) (c : α) : ℚ :=
  (truePos pairs c : ℚ) / ((truePos pairs c : ℚ) + (falsePos pairs c : ℚ))

/-- Per-class recall, with the same zero-division convention. -/
def recallScore (pairs : List (α × α)) (c : α) : ℚ :=
  (truePos pairs c : ℚ) / ((truePos pairs c : ℚ) + (falseNeg pairs c : ℚ))

/-- Per-class F1, the harmonic mean of precision and recall, 0 when both vanish. -/
def f1Class (pairs : List (α × α)) (c : α) : ℚ :=
  if precisionScore pairs c + recallScore pairs c = 0 then 0
  else 2 * precisionScore pairs c * recallScore pairs c /
    (precisionScore pairs c + recallScore pairs c)

/-- The label set sklearn averages over: every label occurring in the true or the
predicted column.  sklearn iterates over the sorted unique labels; since the
weighted average is a commutative sum, a finite set is a faithful embedding. -/
def labelSet (pairs : List (α × α)) : Finset α :=
  (pairs.map Prod.fst ++ pairs.map Prod.snd).toFinset

/-- Support-weighted average of the per-class F1 scores, which is what
`average='weighted'` computes: `Σ_c support(c) · F1(c) / Σ_c support(c)`, and the
total support is the number of rows.  On an empty input sklearn reports the
zero-division value, which is 0 under the default setting; in ℚ the expression
`0 / 0` is 0, so again no case split is needed. -/
def weightedF1 (pairs : List (α × α)) : ℚ :=
  (∑ c ∈ labelSet pairs, (support pairs c : ℚ) * f1Class pairs c) / (pairs.length : ℚ)

/-! ### Embedding of calculate_f1_score

A table is a list of rows `(pol_number, numclaims)`; `pol_number` is an integer
key, the label type stays abstract. -/

/-- The structured content of the ValueError messages raised on the submit path:
the fixed schema message of line 134 (which always names both required columns),
the row-count message of line 68 carrying the expected and the actual count, and
the policy-number message of lines 75–84 built from the two set differences. -/
inductive SubmissionError
  | missingColumns (named : List String)
  | rowCountMismatch (expected actual : ℕ)
  | keySetMismatch (missing extra : Finset ℤ)
deriving DecidableEq

deriving instance DecidableEq for Except

/-- Embedding of `set(df['pol_number'])`. -/
def polNumbers (df : List (ℤ × α)) : Finset ℤ :=
  (df.map Prod.fst).toFinset

/-- Embedding of `pd.merge(submission_renamed, solution_renamed, on='pol_number',
how='inner')`, restricted to the two target columns the scorer reads: an inner
merge keeps the left (submission) row order and, per left row, the solution row
order; each merged row is read back as `(solution_target, submission_target)`,
the argument order of the `f1_score` call. -/
def mergeInner (submission solution : List (ℤ × α)) : List (α × α) :=
  submission.flatMap fun s =>
    (solution.filter fun t => t.1 = s.1).map fun t => (t.2, s.2)

/-- Embedding of `calculate_f1_score` (src/app.py lines 62–96): the row-count
check of lines 67–68, then the policy-number set check of lines 71–84, then the
inner merge and the weighted F1 of lines 88–96.  A raised ValueError is embedded
as `Except.error` carrying the data the message is built from. -/
def calculate_f1_score (submission_df solution_df : List (ℤ × α)) :
    Except SubmissionError ℚ :=
  if submission_df.length ≠ solution_df.length then
    .error (.rowCountMismatch solution_df.length submission_df.length)
  else
    let solution_ids := polNumbers solution_df
    let submission_ids := polNumbers submission_df
    if solution_ids ≠ submission_ids then
      .error (.keySetMismatch (solution_ids \ submission_ids)
                              (submission_ids \ solution_ids))
    else
      .ok (weightedF1 (mergeInner submission_df solution_df))

/-! ### Embedding of the submit handler (src/app.py lines 125–148) -/

/-- The two column names of line 133. -/
def requiredColumns : List String := ["pol_number", "numclaims"]

/-- An uploaded CSV as the handler sees it: its header row and, when the two
required columns are present, the `(pol_number, numclaims)` rows it parses to. -/
structure UploadedSubmission (α : Type) where
  columns : List String
  rows : List (ℤ × α)

/-- Embedding of the schema check of line 133:
`{'pol_number', 'numclaims'}.issubset(submission_df.columns)`. -/
def schemaOk (cols : List String) : Bool :=
  requiredColumns.all fun c => c ∈ cols

/-- The validation-and-scoring path of the submit handler: the schema check of
lines 133–134 (whose fixed message names both required columns), then the call
to `calculate_f1_score` of line 137. -/
def submitPipeline (sub : UploadedSubmission α) (solution_df : List (ℤ × α)) :
    Except SubmissionError ℚ :=
  if ¬ schemaOk sub.columns then .error (.missingColumns requiredColumns)
  else calculate_f1_score sub.rows solution_df

/-- One leaderboard row as built on line 140 (the timestamp is out of scope). -/
structure Entry where
  name : String
  score : ℚ
deriving DecidableEq

/-- Embedding of one whole submission attempt (lines 131–148): on success the
new entry is appended to the leaderboard worksheet (line 143), on any error the
except-branch of line 147 reports it and the append is never reached.  The
result is the leaderboard after the attempt, the solution table after the
attempt, and the reported error if any. -/
def submitAttempt (board : List Entry) (team_name : String)
    (sub : UploadedSubmission α) (solution_df : List (ℤ × α)) :
    List Entry × List (ℤ × α) × Option SubmissionError :=
  match submitPipeline sub solution_df with
  | .error e => (board, solution_df, some e)
  | .ok score => (board ++ [⟨team_name, score⟩], solution_df, none)

/-! ### RMSE (earliest revision, not present in src)

The import comment on line 4 of src/app.py records that the metric was changed
from `mean_squared_error`; the revision that computed RMSE is not part of the
checked-out source, so the metric is modelled from the spec. -/

/-- Modelled from the spec: the mean squared difference between true numeric
value and predicted numeric value over all joined rows — the earliest revision
of the scorer, whose source file is not under src.  The merge is the same
inner merge on `pol_number` as the F1 revision. -/
def meanSquaredError (submission solution : List (ℤ × ℚ)) : ℚ :=
  (((mergeInner submission solution).map fun p => (p.1 - p.2) ^ 2).sum) /
    ((mergeInner submission solution).length : ℚ)

/-- Modelled from the spec: `score(RMSE)` is the square root of the mean squared
difference between true and predicted values over all joined rows. -/
noncomputable def rmse (submission solution : List (ℤ × ℚ)) : ℝ :=
  Real.sqrt ((meanSquaredError submission solution : ℚ) : ℝ)

/-! ## Helper lemmas about the confusion-matrix counts -/

lemma truePos_add_falseNeg (pairs : List (α × α)) (c : α) :
    truePos pairs c + falseNeg pairs c = support pairs c := by
  induction pairs with
  | nil => rfl
  | cons p l ih =>
    simp only [truePos, falseNeg, support, ← List.countP_eq_length_filter,
      List.countP_cons] at ih ⊢
    by_cases h1 : p.1 = c <;> by_cases h2 : p.2 = c <;> simp [h1, h2] at ih ⊢ <;> omega

lemma support_eq_count (pairs : List (α × α)) (c : α) :
    support pairs c = (pairs.map Prod.fst).count c := by
  induction pairs with
  | nil => rfl
  | cons p l ih =>
    by_cases h : p.1 = c <;>
      simp [support, List.filter_cons, List.count_cons, h, ← ih, support]

lemma sum_support (pairs : List (α × α)) :
    ∑ c ∈ labelSet pairs, support pairs c = pairs.length := by
  have hsub : (pairs.map Prod.fst).toFinset ⊆ labelSet pairs := by
    intro x hx
    simp only [labelSet, List.mem_toFinset, List.mem_append] at hx ⊢
    exact Or.inl hx
  calc ∑ c ∈ labelSet pairs, support pairs c
      = ∑ c ∈ labelSet pairs, (pairs.map Prod.fst).count c :=
        Finset.sum_congr rfl fun c _ => support_eq_count pairs c
    _ = ∑ c ∈ (pairs.map Prod.fst).toFinset, (pairs.map Prod.fst).count c :=
        (Finset.sum_subset hsub fun x _ hx =>
          List.count_eq_zero.2 fun hmem => hx (List.mem_toFinset.2 hmem)).symm
    _ = (pairs.map Prod.fst).length := List.sum_toFinset_count_eq_length _
    _ = pairs.length := List.length_map _ _

lemma sum_support_q (pairs : List (α × α)) :
    ∑ c ∈ labelSet pairs, (support pairs c : ℚ) = (pairs.length : ℚ) := by
  rw [← Nat.cast_sum, sum_support]

/-- The per-class F1 collapses to a single fraction of the three counts, with
the convention that division by zero yields zero. -/
lemma f1Class_eq (pairs : List (α × α)) (c : α) :
    f1Class pairs c = 2 * (truePos pairs c : ℚ) /
      (2 * (truePos pairs c : ℚ) + (falsePos pairs c : ℚ) + (falseNeg pairs c : ℚ)) := by
  rcases Nat.eq_zero_or_pos (truePos pairs c) with h | h
  · simp [f1Class, precisionScore, recallScore, h]
  · have hT : (0 : ℚ) < (truePos pairs c : ℚ) := by exact_mod_cast h
    have hP : (0 : ℚ) < (truePos pairs c : ℚ) + (falsePos pairs c : ℚ) :=
      add_pos_of_pos_of_nonneg hT (Nat.cast_nonneg _)
    have hN : (0 : ℚ) < (truePos pairs c : ℚ) + (falseNeg pairs c : ℚ) :=
      add_pos_of_pos_of_nonneg hT (Nat.cast_nonneg _)
    have hprec : 0 < precisionScore pairs c := div_pos hT hP
    have hrec : 0 < recallScore pairs c := div_pos hT hN
    have hne : precisionScore pairs c + recallScore pairs c ≠ 0 :=
      ne_of_gt (add_pos hprec hrec)
    have hDpos : (0 : ℚ) <
        2 * (truePos pairs c : ℚ) + (falsePos pairs c : ℚ) + (falseNeg pairs c : ℚ) := by
      have := Nat.cast_nonneg (α := ℚ) (falsePos pairs c)
      have := Nat.cast_nonneg (α := ℚ) (falseNeg pairs c)
      linarith
    have hD : 2 * (truePos pairs c : ℚ) + (falsePos pairs c : ℚ) + (falseNeg pairs c : ℚ) ≠ 0 :=
      ne_of_gt hDpos
    have hsum : precisionScore pairs c + recallScore pairs c =
        (truePos pairs c : ℚ) *
            (2 * (truePos pairs c : ℚ) + (falsePos pairs c : ℚ) + (falseNeg pairs c : ℚ)) /
          (((truePos pairs c : ℚ) + (falsePos pairs c : ℚ)) *
            ((truePos pairs c : ℚ) + (falseNeg pairs c : ℚ))) := by
      unfold precisionScore recallScore
      field_simp
      ring
    have hB : (truePos pairs c : ℚ) *
          (2 * (truePos pairs c : ℚ) + (falsePos pairs c : ℚ) + (falseNeg pairs c : ℚ)) /
          (((truePos pairs c : ℚ) + (falsePos pairs c : ℚ)) *
            ((truePos pairs c : ℚ) + (falseNeg pairs c : ℚ))) ≠ 0 :=
      ne_of_gt (div_pos (mul_pos hT hDpos) (mul_pos hP hN))
    rw [f1Class, if_neg hne, hsum]
    unfold precisionScore recallScore
    rw [div_eq_div_iff hB hD]
    field_simp
    ring

lemma f1Class_nonneg (pairs : List (α × α)) (c : α) : 0 ≤ f1Class pairs c := by
  rw [f1Class_eq]
  positivity

lemma f1Class_le_one (pairs : List (α × α)) (c : α) : f1Class pairs c ≤ 1 := by
  rw [f1Class_eq]
  apply div_le_one_of_le₀
  · have := Nat.cast_nonneg (α := ℚ) (falsePos pairs c)
    have := Nat.cast_nonneg (α := ℚ) (falseNeg pairs c)
    linarith
  · positivity

/-- The per-class F1 is 1 exactly when the class has a true positive and neither
false positives nor false negatives. -/
lemma f1Class_eq_one_iff (pairs : List (α × α)) (c : α) :
    f1Class pairs c = 1 ↔
      0 < truePos pairs c ∧ falsePos pairs c = 0 ∧ falseNeg pairs c = 0 := by
  rw [f1Class_eq]
  constructor
  · intro h
    by_cases hD : 2 * (truePos pairs c : ℚ) + (falsePos pairs c : ℚ) +
        (falseNeg pairs c : ℚ) = 0
    · rw [hD, div_zero] at h
      exact absurd h (by norm_num)
    · rw [div_eq_one_iff_eq hD] at h
      have hPN : (falsePos pairs c : ℚ) + (falseNeg pairs c : ℚ) = 0 := by linarith
      have hP0 : falsePos pairs c = 0 := by
        have h1 : (0 : ℚ) ≤ (falsePos pairs c : ℚ) := Nat.cast_nonneg _
        have h2 : (0 : ℚ) ≤ (falseNeg pairs c : ℚ) := Nat.cast_nonneg _
        have h3 : (falsePos pairs c : ℚ) = 0 := by linarith
        exact_mod_cast h3
      have hN0 : falseNeg pairs c = 0 := by
        have h1 : (0 : ℚ) ≤ (falsePos pairs c : ℚ) := Nat.cast_nonneg _
        have h2 : (0 : ℚ) ≤ (falseNeg pairs c : ℚ) := Nat.cast_nonneg _
        have h3 : (falseNeg pairs c : ℚ) = 0 := by linarith
        exact_mod_cast h3
      refine ⟨?_, hP0, hN0⟩
      by_contra hT
      have hT0 : truePos pairs c = 0 := Nat.eq_zero_of_not_pos hT
      rw [hT0, hP0, hN0] at hD
      simp at hD
  · rintro ⟨hT, hP0, hN0⟩
    have hT0 : (0 : ℚ) < (truePos pairs c : ℚ) := by exact_mod_cast hT
    rw [hP0, hN0]
    push_cast
    rw [add_zero, add_zero]
    exact div_self (by linarith)

/-! ## Helper lemmas about the weighted F1 -/

lemma weightedF1_nonneg (pairs : List (α × α)) : 0 ≤ weightedF1 pairs := by
  unfold weightedF1
  apply div_nonneg _ (Nat.cast_nonneg _)
  exact Finset.sum_nonneg fun c _ =>
    mul_nonneg (Nat.cast_nonneg _) (f1Class_nonneg pairs c)

lemma weightedF1_le_one (pairs : List (α × α)) : weightedF1 pairs ≤ 1 := by
  unfold weightedF1
  apply div_le_one_of_le₀ _ (Nat.cast_nonneg _)
  calc ∑ c ∈ labelSet pairs, (support pairs c : ℚ) * f1Class pairs c
      ≤ ∑ c ∈ labelSet pairs, (support pairs c : ℚ) :=
        Finset.sum_le_sum fun c _ =>
          mul_le_of_le_one_right (Nat.cast_nonneg _) (f1Class_le_one pairs c)
    _ = (pairs.length : ℚ) := sum_support_q pairs

/-- On an empty merge the weighted F1 is the zero-division value 0. -/
lemma weightedF1_nil : weightedF1 ([] : List (α × α)) = 0 := by
  simp [weightedF1, labelSet]

/-- For a nonempty merge, the weighted F1 is 1 exactly when every row is
predicted with its true label. -/
lemma weightedF1_eq_one_iff (pairs : List (α × α)) (hne : pairs ≠ []) :
    weightedF1 pairs = 1 ↔ ∀ p ∈ pairs, p.1 = p.2 := by
  have hn : (0 : ℚ) < (pairs.length : ℚ) := by
    exact_mod_cast List.length_pos.2 hne
  unfold weightedF1
  constructor
  · intro h
    rw [div_eq_one_iff_eq (ne_of_gt hn)] at h
    have hterm : ∀ c ∈ labelSet pairs,
        (support pairs c : ℚ) * f1Class pairs c = (support pairs c : ℚ) := by
      have hle : ∀ c ∈ labelSet pairs,
          (support pairs c : ℚ) * f1Class pairs c ≤ (support pairs c : ℚ) :=
        fun c _ => mul_le_of_le_one_right (Nat.cast_nonneg _) (f1Class_le_one pairs c)
      have hsums : ∑ c ∈ labelSet pairs, (support pairs c : ℚ) * f1Class pairs c =
          ∑ c ∈ labelSet pairs, (support pairs c : ℚ) := by
        rw [h, sum_support_q]
      intro c hc
      exact (Finset.sum_eq_sum_iff_of_le hle).1 hsums c hc
    intro p hp
    have hc : p.1 ∈ labelSet pairs := by
      simp only [labelSet, List.mem_toFinset, List.mem_append, List.mem_map]
      exact Or.inl ⟨p, hp, rfl⟩
    have hs : 0 < support pairs p.1 := by
      have : p ∈ pairs.filter fun q => q.1 = p.1 :=
        List.mem_filter.2 ⟨hp, by simp⟩
      simpa [support, List.length_pos] using List.ne_nil_of_mem this
    have hsq : (support pairs p.1 : ℚ) ≠ 0 := by
      exact_mod_cast Nat.pos_iff_ne_zero.1 hs
    have hf1 : f1Class pairs p.1 = 1 := by
      have h' : (support pairs p.1 : ℚ) * f1Class pairs p.1 =
          (support pairs p.1 : ℚ) * 1 := by
        rw [mul_one]
        exact hterm p.1 hc
      exact mul_left_cancel₀ hsq h'
    have hFN : falseNeg pairs p.1 = 0 := ((f1Class_eq_one_iff pairs p.1).1 hf1).2.2
    by_contra hne2
    have : p ∈ pairs.filter fun q => q.1 = p.1 ∧ q.2 ≠ p.1 :=
      List.mem_filter.2 ⟨hp, by simp [Ne.symm]; exact fun h => hne2 (h ▸ rfl)⟩
    have : 0 < falseNeg pairs p.1 := by
      simpa [falseNeg, List.length_pos] using List.ne_nil_of_mem this
    omega
  · intro hall
    have hterm : ∀ c ∈ labelSet pairs,
        (support pairs c : ℚ) * f1Class pairs c = (support pairs c : ℚ) := by
      intro c _
      rcases Nat.eq_zero_or_pos (support pairs c) with hs | hs
      · rw [hs]; simp
      · have hFP : falsePos pairs c = 0 := by
          rw [falsePos, List.length_eq_zero, List.filter_eq_nil_iff]
          intro p hp
          have := hall p hp
          simp [this]
        have hFN : falseNeg pairs c = 0 := by
          rw [falseNeg, List.length_eq_zero, List.filter_eq_nil_iff]
          intro p hp
          have := hall p hp
          simp [this]
        have hT : 0 < truePos pairs c := by
          have := truePos_add_falseNeg pairs c
          omega
        rw [(f1Class_eq_one_iff pairs c).2 ⟨hT, hFP, hFN⟩, mul_one]
    rw [Finset.sum_congr rfl hterm, sum_support_q]
    exact div_self (ne_of_gt hn)

/-! ## Permutation invariance of the weighted F1 -/

lemma truePos_eq_of_perm {pairs pairs' : List (α × α)} (h : pairs.Perm pairs') (c : α) :
    truePos pairs c = truePos pairs' c :=
  (h.filter _).length_eq

lemma falsePos_eq_of_perm {pairs pairs' : List (α × α)} (h : pairs.Perm pairs') (c : α) :
    falsePos pairs c = falsePos pairs' c :=
  (h.filter _).length_eq

lemma falseNeg_eq_of_perm {pairs pairs' : List (α × α)} (h : pairs.Perm pairs') (c : α) :
    falseNeg pairs c = falseNeg pairs' c :=
  (h.filter _).length_eq

lemma support_eq_of_perm {pairs pairs' : List (α × α)} (h : pairs.Perm pairs') (c : α) :
    support pairs c = support pairs' c :=
  (h.filter _).length_eq

lemma f1Class_eq_of_perm {pairs pairs' : List (α × α)} (h : pairs.Perm pairs') (c : α) :
    f1Class pairs c = f1Class pairs' c := by
  rw [f1Class_eq, f1Class_eq, truePos_eq_of_perm h, falsePos_eq_of_perm h,
    falseNeg_eq_of_perm h]

lemma labelSet_eq_of_perm {pairs pairs' : List (α × α)} (h : pairs.Perm pairs') :
    labelSet pairs = labelSet pairs' := by
  ext x
  simp only [labelSet, List.mem_toFinset]
  exact ((h.map Prod.fst).append (h.map Prod.snd)).mem_iff

lemma weightedF1_eq_of_perm {pairs pairs' : List (α × α)} (h : pairs.Perm pairs') :
    weightedF1 pairs = weightedF1 pairs' := by
  unfold weightedF1
  rw [labelSet_eq_of_perm h, h.length_eq,
    Finset.sum_congr rfl fun c _ => by
      rw [support_eq_of_perm h, f1Class_eq_of_perm h]]

/-! ## Helper lemmas about the merge and the validator branches -/

omit [DecidableEq α] in
lemma polNumbers_eq_of_perm {sub sub' : List (ℤ × α)} (h : sub.Perm sub') :
    polNumbers sub = polNumbers sub' := by
  ext x
  simp only [polNumbers, List.mem_toFinset]
  exact (h.map Prod.fst).mem_iff

omit [DecidableEq α] in
lemma mergeInner_perm {sub sub' : List (ℤ × α)} (h : sub.Perm sub')
    (sol : List (ℤ × α)) : (mergeInner sub sol).Perm (mergeInner sub' sol) :=
  h.flatMap_right _

omit [DecidableEq α] in
/-- When the key sets agree and the solution is nonempty, the inner merge is
nonempty. -/
lemma mergeInner_ne_nil {sub sol : List (ℤ × α)}
    (hkeys : polNumbers sub = polNumbers sol) (hsol : sol ≠ []) :
    mergeInner sub sol ≠ [] := by
  obtain ⟨x, hx⟩ := List.exists_mem_of_ne_nil sol hsol
  have hxk : x.1 ∈ polNumbers sub := by
    rw [hkeys]
    exact List.mem_toFinset.2 (List.mem_map_of_mem Prod.fst hx)
  rw [polNumbers, List.mem_toFinset, List.mem_map] at hxk
  obtain ⟨s, hs, hs1⟩ := hxk
  apply List.ne_nil_of_mem (a := (x.2, s.2))
  rw [mergeInner, List.mem_flatMap]
  refine ⟨s, hs, List.mem_map.2 ⟨x, List.mem_filter.2 ⟨hx, by simp [hs1]⟩, rfl⟩⟩

/-- The scorer branch: when both validation checks pass, `calculate_f1_score`
returns the weighted F1 of the merged rows. -/
lemma calculate_eq_ok {sub sol : List (ℤ × α)} (hlen : sub.length = sol.length)
    (hkeys : polNumbers sub = polNumbers sol) :
    calculate_f1_score sub sol = .ok (weightedF1 (mergeInner sub sol)) := by
  unfold calculate_f1_score
  simp [hlen, hkeys]

/-- Inversion: a returned score means both validation checks passed and the
score is the weighted F1 of the merged rows. -/
lemma calculate_ok_inv {sub sol : List (ℤ × α)} {q : ℚ}
    (h : calculate_f1_score sub sol = .ok q) :
    sub.length = sol.length ∧ polNumbers sub = polNumbers sol ∧
      q = weightedF1 (mergeInner sub sol) := by
  simp only [calculate_f1_score] at h
  split at h
  · cases h
  · rename_i h1
    split at h
    · cases h
    · rename_i h2
      exact ⟨not_not.1 h1, (not_not.1 h2).symm, (Except.ok.inj h).symm⟩

/-! ## Concrete evaluations used by the claims -/

/-- Scenario A of the spec, evaluated on the embedded scorer: the weighted F1 of
the merged rows is exactly 8/15.  Per class: yes has TP 2, FP 1, FN 0 and hence
F1 4/5 with support 2; no has TP 0 and hence F1 0 with support 1; the weighted
average is (2 · 4/5 + 1 · 0) / 3 = 8/15. -/
lemma weightedF1_scenarioA :
    weightedF1 [("yes", "yes"), ("no", "yes"), ("yes", "yes")] = 8 / 15 := by
  have hlab : labelSet [("yes", "yes"), ("no", "yes"), ("yes", "yes")] =
      ({"yes", "no"} : Finset String) := by decide
  have tY : truePos [("yes", "yes"), ("no", "yes"), ("yes", "yes")] "yes" = 2 := by decide
  have pY : falsePos [("yes", "yes"), ("no", "yes"), ("yes", "yes")] "yes" = 1 := by decide
  have nY : falseNeg [("yes", "yes"), ("no", "yes"), ("yes", "yes")] "yes" = 0 := by decide
  have sY : support [("yes", "yes"), ("no", "yes"), ("yes", "yes")] "yes" = 2 := by decide
  have tN : truePos [("yes", "yes"), ("no", "yes"), ("yes", "yes")] "no" = 0 := by decide
  have sN : support [("yes", "yes"), ("no", "yes"), ("yes", "yes")] "no" = 1 := by decide
  have fY : f1Class [("yes", "yes"), ("no", "yes"), ("yes", "yes")] "yes" = 4 / 5 := by
    rw [f1Class_eq, tY, pY, nY]
    norm_num
  have fN : f1Class [("yes", "yes"), ("no", "yes"), ("yes", "yes")] "no" = 0 := by
    rw [f1Class_eq, tN]
    norm_num
  rw [weightedF1, hlab]
  rw [show ({"yes", "no"} : Finset String) = insert "yes" {"no"} from rfl]
  rw [Finset.sum_insert (by decide), Finset.sum_singleton, sY, sN, fY, fN]
  norm_num

/-- Scenario A end to end: both validation checks pass and the returned score is
exactly 8/15. -/
lemma scenarioA_eval :
    calculate_f1_score [((1 : ℤ), "yes"), (2, "yes"), (3, "yes")]
        [((1 : ℤ), "yes"), (2, "no"), (3, "yes")] = .ok (8 / 15) := by
  have hmerge : mergeInner [((1 : ℤ), "yes"), (2, "yes"), (3, "yes")]
      [((1 : ℤ), "yes"), (2, "no"), (3, "yes")] =
        [("yes", "yes"), ("no", "yes"), ("yes", "yes")] := by decide
  rw [calculate_eq_ok (by decide) (by decide), hmerge, weightedF1_scenarioA]

/-- A perfect one-row submission scores 1. -/
lemma identity_eval :
    calculate_f1_score [((1 : ℤ), "a")] [((1 : ℤ), "a")] = .ok 1 := by
  have hmerge : mergeInner [((1 : ℤ), "a")] [((1 : ℤ), "a")] = [("a", "a")] := by decide
  rw [calculate_eq_ok rfl rfl, hmerge,
    (weightedF1_eq_one_iff [("a", "a")] (by decide)).2 (by decide)]

/-- A perfect two-row submission scores 1. -/
lemma pair_eval :
    calculate_f1_score [((1 : ℤ), "a"), (2, "b")] [((1 : ℤ), "a"), (2, "b")] = .ok 1 := by
  have hmerge : mergeInner [((1 : ℤ), "a"), (2, "b")] [((1 : ℤ), "a"), (2, "b")] =
      [("a", "a"), ("b", "b")] := by decide
  rw [calculate_eq_ok rfl rfl, hmerge,
    (weightedF1_eq_one_iff [("a", "a"), ("b", "b")] (by decide)).2 (by decide)]

/-! ## The claims -/

/-- C1: for every submission table that contains both required columns, has the
same number of rows as the solution table, and whose set of join keys equals
the set of join keys of the solution exactly, validation succeeds and the
scorer returns a score — no rejection is raised. -/
theorem claim_C1 (sub : UploadedSubmission α) (sol : List (ℤ × α))
    (hcols : "pol_number" ∈ sub.columns ∧ "numclaims" ∈ sub.columns)
    (hlen : sub.rows.length = sol.length)
    (hkeys : polNumbers sub.rows = polNumbers sol) :
    submitPipeline sub sol = .ok (weightedF1 (mergeInner sub.rows sol)) := by
  have hschema : schemaOk sub.columns = true := by
    simp [schemaOk, requiredColumns, hcols.1, hcols.2]
  unfold submitPipeline
  rw [if_neg (by simp [hschema])]
  exact calculate_eq_ok hlen hkeys

/-- C1 witness: a concrete conforming submission receives a score. -/
theorem claim_C1_witness :
    submitPipeline (⟨["pol_number", "numclaims"], [((1 : ℤ), "yes")]⟩ :
        UploadedSubmission String) [((1 : ℤ), "yes")] =
      .ok (weightedF1 (mergeInner [((1 : ℤ), "yes")] [((1 : ℤ), "yes")])) :=
  claim_C1 _ _ ⟨by decide, by decide⟩ rfl rfl

/-- C2 counterexample: the submission [(1, a)] against the solution
[(1, a), (2, a)] is missing the solution key 2, yet validation rejects it with
the row-count error, not with the key-set error — the row-count check of lines
67–68 runs first. -/
theorem claim_C2_counterexample :
    (2 : ℤ) ∈ polNumbers [((1 : ℤ), "a"), (2, "a")] ∧
    (2 : ℤ) ∉ polNumbers [((1 : ℤ), "a")] ∧
    calculate_f1_score [((1 : ℤ), "a")] [((1 : ℤ), "a"), (2, "a")] =
      .error (.rowCountMismatch 2 1) ∧
    calculate_f1_score [((1 : ℤ), "a")] [((1 : ℤ), "a"), (2, "a")] ≠
      .error (.keySetMismatch {2} ∅) := by decide

/-- C2 amended: for every submission with the same row count as the solution
whose key set differs from the key set of the solution, validation rejects with
the key-set error whose missing set is solution keys minus submission keys and
whose extra set is submission keys minus solution keys. -/
theorem claim_C2 (sub sol : List (ℤ × α)) (hlen : sub.length = sol.length)
    (hne : polNumbers sub ≠ polNumbers sol) :
    calculate_f1_score sub sol =
      .error (.keySetMismatch (polNumbers sol \ polNumbers sub)
        (polNumbers sub \ polNumbers sol)) := by
  simp only [calculate_f1_score]
  rw [if_neg (by simp [hlen]), if_pos (Ne.symm hne)]

/-- C2 witness: spec Scenario B, keys {1, 4} against {1, 2}: missing {2},
extra {4}. -/
theorem claim_C2_witness :
    calculate_f1_score [((1 : ℤ), "x"), (4, "y")] [((1 : ℤ), "x"), (2, "y")] =
      .error (.keySetMismatch
        (polNumbers [((1 : ℤ), "x"), (2, "y")] \ polNumbers [((1 : ℤ), "x"), (4, "y")])
        (polNumbers [((1 : ℤ), "x"), (4, "y")] \ polNumbers [((1 : ℤ), "x"), (2, "y")])) ∧
    polNumbers [((1 : ℤ), "x"), (2, "y")] \ polNumbers [((1 : ℤ), "x"), (4, "y")] =
      ({2} : Finset ℤ) ∧
    polNumbers [((1 : ℤ), "x"), (4, "y")] \ polNumbers [((1 : ℤ), "x"), (2, "y")] =
      ({4} : Finset ℤ) :=
  ⟨claim_C2 _ _ rfl (by decide), by decide, by decide⟩

/-- C3 amended: on Scenario A the returned weighted F1 is exactly 8/15, which
is approximately 0.5333 — not the 0.7333 the spec states. -/
theorem claim_C3 :
    calculate_f1_score [((1 : ℤ), "yes"), (2, "yes"), (3, "yes")]
        [((1 : ℤ), "yes"), (2, "no"), (3, "yes")] = .ok (8 / 15) ∧
      |(8 : ℚ) / 15 - 5333 / 10000| < 1 / 1000 :=
  ⟨scenarioA_eval, by rw [abs_sub_lt_iff]; constructor <;> norm_num⟩

/-- C3 counterexample: the Scenario A score is 8/15 and is not within 0.1 of
the claimed 0.7333, so the claimed approximate value is wrong. -/
theorem claim_C3_counterexample :
    calculate_f1_score [((1 : ℤ), "yes"), (2, "yes"), (3, "yes")]
        [((1 : ℤ), "yes"), (2, "no"), (3, "yes")] = .ok (8 / 15) ∧
      ¬ |(8 : ℚ) / 15 - 7333 / 10000| < 1 / 10 :=
  ⟨scenarioA_eval, by rw [abs_sub_lt_iff]; norm_num⟩

/-- C4 counterexample: a submission whose header also has an extra column
passes the schema check although its column set is not exactly the two required
names, and a submission missing only the numclaims column is rejected with a
message naming both required columns, not exactly the absent one — the check of
line 133 is a subset test and the message of line 134 is a fixed string. -/
theorem claim_C4_counterexample :
    schemaOk ["pol_number", "numclaims", "extra"] = true ∧
    ["pol_number", "numclaims", "extra"].toFinset ≠ requiredColumns.toFinset ∧
    submitPipeline (⟨["pol_number"], []⟩ : UploadedSubmission String) [] =
      .error (.missingColumns ["pol_number", "numclaims"]) := by decide

/-- C4 amended: the schema check passes exactly when both required columns are
present — extra columns are allowed — and a submission missing either required
column is rejected with the fixed error naming both required column names. -/
theorem claim_C4 (sub : UploadedSubmission α) (sol : List (ℤ × α)) :
    (schemaOk sub.columns = true ↔
      "pol_number" ∈ sub.columns ∧ "numclaims" ∈ sub.columns) ∧
    (("pol_number" ∉ sub.columns ∨ "numclaims" ∉ sub.columns) →
      submitPipeline sub sol = .error (.missingColumns requiredColumns)) := by
  have hiff : schemaOk sub.columns = true ↔
      "pol_number" ∈ sub.columns ∧ "numclaims" ∈ sub.columns := by
    simp [schemaOk, requiredColumns]
  refine ⟨hiff, fun h => ?_⟩
  have hbad : ¬ schemaOk sub.columns := by
    rw [hiff]
    tauto
  unfold submitPipeline
  rw [if_pos hbad]

/-- C4 witness: a submission missing the pol_number column is rejected with the
fixed message naming both required columns. -/
theorem claim_C4_witness :
    submitPipeline (⟨["numclaims"], []⟩ : UploadedSubmission String) [] =
      .error (.missingColumns requiredColumns) :=
  (claim_C4 (⟨["numclaims"], []⟩ : UploadedSubmission String) []).2 (Or.inl (by decide))

/-- C5: for every submission whose row count differs from the row count of the
solution, validation rejects with the row-count error carrying
expected = number of solution rows and actual = number of submission rows. -/
theorem claim_C5 (sub sol : List (ℤ × α)) (h : sub.length ≠ sol.length) :
    calculate_f1_score sub sol = .error (.rowCountMismatch sol.length sub.length) := by
  simp only [calculate_f1_score]
  rw [if_pos h]

/-- C5 witness: one row against an empty solution is rejected with expected 0,
actual 1. -/
theorem claim_C5_witness :
    calculate_f1_score [((1 : ℤ), "a")] ([] : List (ℤ × String)) =
      .error (.rowCountMismatch 0 1) :=
  claim_C5 _ _ (by decide)

omit [DecidableEq α] in
/-- C6: for every nonempty solution table and every submission that passes
validation — equal row counts and equal join-key sets — the inner merge on the
join-key column produces at least one row. -/
theorem claim_C6 (sub sol : List (ℤ × α)) (_hlen : sub.length = sol.length)
    (hkeys : polNumbers sub = polNumbers sol) (hsol : sol ≠ []) :
    mergeInner sub sol ≠ [] :=
  mergeInner_ne_nil hkeys hsol

/-- C6 witness: a concrete validated pair has a nonempty merge. -/
theorem claim_C6_witness :
    mergeInner [((1 : ℤ), "a")] [((1 : ℤ), "a")] ≠ [] :=
  claim_C6 _ _ rfl rfl (by decide)

/-- C7 amended: for every submission/solution pair with a nonempty solution
that passes validation, the weighted F1 lies in [0, 1], and it is 1 exactly
when every predicted label equals its matched true label. -/
theorem claim_C7 (sub sol : List (ℤ × α)) (q : ℚ) (hsol : sol ≠ [])
    (h : calculate_f1_score sub sol = .ok q) :
    0 ≤ q ∧ q ≤ 1 ∧ (q = 1 ↔ ∀ p ∈ mergeInner sub sol, p.1 = p.2) := by
  obtain ⟨hlen, hkeys, hq⟩ := calculate_ok_inv h
  subst hq
  exact ⟨weightedF1_nonneg _, weightedF1_le_one _,
    weightedF1_eq_one_iff _ (mergeInner_ne_nil hkeys hsol)⟩

/-- C7 counterexample: the empty pair passes validation and every merged row —
there are none — matches, yet the returned score is the zero-division value 0,
not 1, so the claimed equivalence fails without a nonemptiness assumption. -/
theorem claim_C7_counterexample :
    calculate_f1_score ([] : List (ℤ × String)) [] = .ok 0 ∧
    ((mergeInner ([] : List (ℤ × String)) []).all fun p => p.1 == p.2) = true ∧
    (0 : ℚ) ≠ 1 := by
  refine ⟨?_, by decide, by norm_num⟩
  rw [calculate_eq_ok rfl rfl]
  rw [show mergeInner ([] : List (ℤ × String)) [] = [] from rfl, weightedF1_nil]

/-- C7 witness: a one-row perfect submission scores 1, inside [0, 1], with the
match condition holding. -/
theorem claim_C7_witness :
    0 ≤ (1 : ℚ) ∧ (1 : ℚ) ≤ 1 ∧
      ((1 : ℚ) = 1 ↔ ∀ p ∈ mergeInner [((1 : ℤ), "a")] [((1 : ℤ), "a")], p.1 = p.2) :=
  claim_C7 _ _ 1 (by decide) identity_eval

/-- C8: the earliest revision scores by RMSE, the square root of the mean
squared difference between true and predicted values over all joined rows; on
Scenario C — solution [(1, 10), (2, 20)], submission [(1, 12), (2, 18)] — the
score is exactly 2.  Modelled from the spec, since the RMSE revision is not
part of the checked-out source. -/
theorem claim_C8 :
    rmse [((1 : ℤ), (12 : ℚ)), (2, 18)] [((1 : ℤ), (10 : ℚ)), (2, 20)] = 2 := by
  have hmerge : mergeInner [((1 : ℤ), (12 : ℚ)), (2, 18)] [((1 : ℤ), (10 : ℚ)), (2, 20)] =
      [((10 : ℚ), 12), ((20 : ℚ), 18)] := by
    norm_num [mergeInner]
  have hmse : meanSquaredError [((1 : ℤ), (12 : ℚ)), (2, 18)]
      [((1 : ℤ), (10 : ℚ)), (2, 20)] = 4 := by
    rw [meanSquaredError, hmerge]
    norm_num
  rw [rmse, hmse]
  rw [show ((4 : ℚ) : ℝ) = (2 : ℝ) ^ 2 by norm_num]
  exact Real.sqrt_sq (by norm_num)

/-- C9: for every submission attempt that fails with a validation error, no
entry is appended to the leaderboard and the solution table is unchanged. -/
theorem claim_C9 (board : List Entry) (team_name : String)
    (sub : UploadedSubmission α) (sol : List (ℤ × α)) (e : SubmissionError)
    (h : (submitAttempt board team_name sub sol).2.2 = some e) :
    (submitAttempt board team_name sub sol).1 = board ∧
    (submitAttempt board team_name sub sol).2.1 = sol := by
  unfold submitAttempt at h ⊢
  cases hp : submitPipeline sub sol with
  | error e2 => exact ⟨rfl, rfl⟩
  | ok q =>
    rw [hp] at h
    simp at h

/-- C9 witness: a schema-rejected attempt leaves an empty leaderboard empty and
the solution untouched. -/
theorem claim_C9_witness :
    (submitAttempt [] "team" (⟨["numclaims"], []⟩ : UploadedSubmission String) []).1 = [] ∧
    (submitAttempt [] "team" (⟨["numclaims"], []⟩ : UploadedSubmission String) []).2.1 = [] :=
  claim_C9 [] "team" _ _ (.missingColumns requiredColumns) (by decide)

/-- C10: for every validated submission whose solution join keys are unique,
the score is invariant under any permutation of the submission rows. -/
theorem claim_C10 (sub sub' sol : List (ℤ × α)) (q : ℚ)
    (_hnodup : (sol.map Prod.fst).Nodup) (hperm : sub.Perm sub')
    (h : calculate_f1_score sub sol = .ok q) :
    calculate_f1_score sub' sol = .ok q := by
  obtain ⟨hlen, hkeys, hq⟩ := calculate_ok_inv h
  have hlen2 : sub'.length = sol.length := by
    rw [← hperm.length_eq]
    exact hlen
  have hkeys2 : polNumbers sub' = polNumbers sol := by
    rw [← polNumbers_eq_of_perm hperm]
    exact hkeys
  rw [calculate_eq_ok hlen2 hkeys2, hq]
  exact congrArg Except.ok (weightedF1_eq_of_perm (mergeInner_perm hperm sol)).symm

/-- C10 witness: swapping the two rows of a perfect submission leaves the score
at 1. -/
theorem claim_C10_witness :
    calculate_f1_score [((2 : ℤ), "b"), (1, "a")] [((1 : ℤ), "a"), (2, "b")] = .ok 1 :=
  claim_C10 [((1 : ℤ), "a"), (2, "b")] [((2 : ℤ), "b"), (1, "a")] _ 1
    (by decide) (by decide) pair_eval

end ClassroomLeaderboard
